import Mathlib

/-!
# Verification of the GPS location tracker (`src/app.py`)

A shallow embedding of the Streamlit GPS location tracker. The program keeps
an in-memory list `st.session_state.locations` of location records, fills new
records from either the browser-geolocation bridge (`get_location`) or a
manual-entry form, reverse-geocodes coordinates with a blanket
catch-and-fallback, renders the history as a folium map and a history panel,
and exports the history as CSV.

Coordinates are modelled as rationals (the Python code only passes them
through and compares them with `0`; no floating-point arithmetic is
performed on them). External effects are modelled as explicit inputs: the
outcome of the reverse-geocoding call is an `Except` value, the current time
is a `DateTime` argument, and the values the geolocation bridge left in the
session state are `Option` arguments.
-/

namespace WSA

/-- One captured location, mirroring the dict literals built in `app.py`
(keys `latitude`, `longitude`, `accuracy`, `address`, `timestamp`).
`accuracy` is `none` when the session state held no accuracy value. -/
structure LocationRecord where
  latitude : ℚ
  longitude : ℚ
  accuracy : Option ℚ
  address : String
  timestamp : String
deriving DecidableEq, Repr

/-- A wall-clock instant, input to `datetime.now().strftime(...)`. -/
structure DateTime where
  year : ℕ
  month : ℕ
  day : ℕ
  hour : ℕ
  minute : ℕ
  second : ℕ
deriving DecidableEq, Repr

/-- Zero-pad to two digits, as `%m`, `%d`, `%H`, `%M`, `%S` do. -/
def pad2 (n : ℕ) : String :=
  if n < 10 then "0" ++ toString n else toString n

/-- Zero-pad to four digits, as `%Y` does. -/
def pad4 (n : ℕ) : String :=
  if n < 10 then "000" ++ toString n
  else if n < 100 then "00" ++ toString n
  else if n < 1000 then "0" ++ toString n
  else toString n

/-- `datetime.now().strftime("%Y-%m-%d %H:%M:%S")`. -/
def strftime (t : DateTime) : String :=
  pad4 t.year ++ "-" ++ pad2 t.month ++ "-" ++ pad2 t.day ++ " " ++
  pad2 t.hour ++ ":" ++ pad2 t.minute ++ ":" ++ pad2 t.second

/-- The failure modes of the reverse-geocoding lookup; all of them raise in
`geolocator.reverse` / `location.address` and land in the bare `except`. -/
inductive GeoError where
  | network
  | malformedResponse
  | service
  | timeout
deriving DecidableEq, Repr

/-- Outcome of `geolocator.reverse(...).address`: either an address string
or one of the errors of `GeoError`. -/
abbrev GeoResult := Except GeoError String

/-- The `try: address = geolocator.reverse(...).address / except: address =
"Unknown location"` block shared by both input paths in `app.py`. -/
def geocodeResult : GeoResult → String
  | Except.ok addr => addr
  | Except.error _ => "Unknown location"

/-- Python truthiness of an optional numeric session-state value:
`None` and `0` are falsy, every other number is truthy. -/
def truthyQ : Option ℚ → Bool
  | none => false
  | some q => decide (q ≠ 0)

/-- Python truthiness of an optional string: `None` and `""` are falsy. -/
def truthyStr : Option String → Bool
  | none => false
  | some s => decide (s ≠ "")

/-- What `get_location` returns together with what it shows: the candidate
record (or `none`) and the `st.error` message when one is displayed. -/
structure GetLocationResult where
  record : Option LocationRecord
  errorMsg : Option String
deriving DecidableEq, Repr

/-- The `st.error(f"Error getting location: {error}")` text. -/
def errorText : Option String → Option String
  | none => none
  | some e => some ("Error getting location: " ++ e)

/-- `get_location()` from `app.py`: reads `lat`, `lon`, `acc`, `error` from
the session state; if `error` is truthy it shows the error and returns
`None`; if `lat and lon` (Python truthiness) it builds the record with the
geocoded (or fallback) address and the formatted current time; otherwise it
returns `None` silently. -/
def get_location (lat lon acc : Option ℚ) (err : Option String)
    (geo : GeoResult) (now : DateTime) : GetLocationResult :=
  if truthyStr err then
    ⟨none, errorText err⟩
  else if truthyQ lat && truthyQ lon then
    ⟨some ⟨lat.getD 0, lon.getD 0, acc, geocodeResult geo, strftime now⟩, none⟩
  else
    ⟨none, none⟩

/-- The "Get Current Location" button handler: `location = get_location()`,
and `if location:` (a dict is truthy iff present here) append it to
`st.session_state.locations`. Returns the updated history. -/
def getCurrentLocationHandler (hist : List LocationRecord)
    (lat lon acc : Option ℚ) (err : Option String)
    (geo : GeoResult) (now : DateTime) : List LocationRecord :=
  match (get_location lat lon acc err geo now).record with
  | some loc => hist ++ [loc]
  | none => hist

/-- The "Add Manual Location" button handler: geocode the typed coordinates
(best effort), build the record with `accuracy = 0` and the formatted
current time, and append it unconditionally. -/
def addManualLocation (hist : List LocationRecord)
    (manual_lat manual_lon : ℚ) (geo : GeoResult) (now : DateTime) :
    List LocationRecord :=
  hist ++ [⟨manual_lat, manual_lon, some 0, geocodeResult geo, strftime now⟩]

/-- `st.session_state.locations.append(record)`. -/
def appendRecord (hist : List LocationRecord) (r : LocationRecord) :
    List LocationRecord :=
  hist ++ [r]

/-- A sequence of appends, in order. -/
def applyAppends (hist : List LocationRecord) (rs : List LocationRecord) :
    List LocationRecord :=
  rs.foldl appendRecord hist

/-- `all()`: the history list itself, in insertion order. -/
def allLocations (hist : List LocationRecord) : List LocationRecord :=
  hist

/-- `latest()`: `st.session_state.locations[-1]`, or `none` when empty. -/
def latestLocation (hist : List LocationRecord) : Option LocationRecord :=
  hist.getLast?

/-- The "Clear Location History" handler: `st.session_state.locations = []`. -/
def clearHistory (_hist : List LocationRecord) : List LocationRecord :=
  []

/-! ## Map renderer (`folium.Map` / `folium.Marker` / `folium.PolyLine`) -/

/-- A `folium.Icon(color=..., icon=...)`. -/
structure MarkerIcon where
  color : String
  icon : String
deriving DecidableEq, Repr

/-- The icon for the chronologically last record
(`folium.Icon(color='red', icon='location-arrow')`). -/
def latestIcon : MarkerIcon := ⟨"red", "location-arrow"⟩

/-- The icon shared by every earlier record
(`folium.Icon(color='blue', icon='info-sign')`). -/
def earlierIcon : MarkerIcon := ⟨"blue", "info-sign"⟩

/-- A `folium.Marker`: position, popup text and icon. -/
structure Marker where
  pos : ℚ × ℚ
  popup : String
  icon : MarkerIcon
deriving DecidableEq, Repr

/-- The popup f-string built for each marker. -/
def popupText (loc : LocationRecord) : String :=
  "Time: " ++ loc.timestamp ++ "<br>" ++
  "Coordinates: " ++ toString loc.latitude ++ ", " ++ toString loc.longitude ++ "<br>" ++
  "Address: " ++ loc.address

/-- The marker placed for the record at position `i` out of `n`: the last
index gets the distinguished icon, everything before it the shared one. -/
def mkMarker (n i : ℕ) (loc : LocationRecord) : Marker :=
  ⟨(loc.latitude, loc.longitude), popupText loc,
   if i = n - 1 then latestIcon else earlierIcon⟩

/-- The folium map object: center, zoom, markers, optional polyline. -/
structure MapObject where
  center : ℚ × ℚ
  zoom : ℕ
  markers : List Marker
  polyline : Option (List (ℚ × ℚ))
deriving DecidableEq, Repr

/-- The map-rendering block of `app.py`: nothing when the history is empty
(the `st.info` placeholder is shown instead); otherwise a map centered at
the last record with `zoom_start=15`, one marker per record (the last one
styled distinctly), and — when there is more than one record — a polyline
through all coordinates in insertion order. -/
def renderMap (locs : List LocationRecord) : Option MapObject :=
  match locs.getLast? with
  | none => none
  | some last =>
    some ⟨(last.latitude, last.longitude), 15,
          locs.enum.map (fun p => mkMarker locs.length p.1 p.2),
          if locs.length > 1 then
            some (locs.map (fun l => (l.latitude, l.longitude)))
          else none⟩

/-! ## History panel -/

/-- What the "Location History" column displays for a non-empty history:
the latest record's details (the accuracy line only when
`latest['accuracy']` is truthy) and the three-column table
`timestamp, latitude, longitude` over all records in order. -/
structure HistoryPanel where
  latestTime : String
  latestCoords : ℚ × ℚ
  latestAddress : String
  accuracyLine : Option String
  tableRows : List (String × ℚ × ℚ)
deriving DecidableEq, Repr

/-- The history-panel block of `app.py`: `st.info` placeholder when empty,
otherwise the latest record's fields (accuracy line gated by
`if latest['accuracy']:`) and `df[['timestamp', 'latitude', 'longitude']]`. -/
def renderHistoryPanel (locs : List LocationRecord) : Option HistoryPanel :=
  match locs.getLast? with
  | none => none
  | some latest =>
    some ⟨latest.timestamp, (latest.latitude, latest.longitude),
          latest.address,
          if truthyQ latest.accuracy then
            some ("±" ++ toString (latest.accuracy.getD 0) ++ " meters")
          else none,
          locs.map (fun l => (l.timestamp, l.latitude, l.longitude))⟩

/-! ## CSV export (`df.to_csv(index=False).encode('utf-8')`)

The delimited text is modelled at the character level (`List Char`).
`csvText` renders each row as its cells joined by `','` and terminated by
`'\n'`, with `to_csv`'s default QUOTE_MINIMAL quoting: a field containing
the delimiter, the quote character, or a line break is wrapped in double
quotes, and embedded quote characters are doubled. `parseCsv` is the
re-reading direction: the standard CSV reader state machine (field start /
unquoted field / quoted field / quote seen inside a quoted field), so
quoted fields are restored intact, escaped quotes undoubled, and the
trailing newline ends the last row. -/

/-- Join character lists with a separator character. -/
def intercalateChar (c : Char) : List (List Char) → List Char
  | [] => []
  | [l] => l
  | l :: l2 :: ls => l ++ c :: intercalateChar c (l2 :: ls)

/-- QUOTE_MINIMAL: a field needs quoting iff it contains the delimiter,
the quote character or a line-break character. -/
def needsQuote (cell : List Char) : Bool :=
  cell.any (fun c => c == ',' || c == '"' || c == '\n' || c == '\r')

/-- Double every embedded quote character, as the CSV writer does inside a
quoted field. -/
def escapeQuotes : List Char → List Char
  | [] => []
  | c :: cs =>
    if c = '"' then '"' :: '"' :: escapeQuotes cs
    else c :: escapeQuotes cs

/-- Serialize one field: wrapped in quotes with doubled embedded quotes
when QUOTE_MINIMAL requires it, verbatim otherwise. -/
def encodeCell (cell : List Char) : List Char :=
  if needsQuote cell then '"' :: (escapeQuotes cell ++ ['"']) else cell

/-- The header row `to_csv` writes: the dict keys of the records, i.e. the
record's attribute names in declaration order. -/
def csvHeader : List (List Char) :=
  ["latitude".data, "longitude".data, "accuracy".data, "address".data,
   "timestamp".data]

/-- How a record's fields are rendered as CSV cells: numbers as decimal
text, a blank cell for an absent accuracy, strings verbatim. -/
def LocationRecord.csvFields (r : LocationRecord) : List (List Char) :=
  [(toString r.latitude).data, (toString r.longitude).data,
   (match r.accuracy with
    | none => []
    | some a => (toString a).data),
   r.address.data, r.timestamp.data]

/-- All rows of the CSV: the header, then one row per record in insertion
order (no row excluded). -/
def csvRows (locs : List LocationRecord) : List (List (List Char)) :=
  csvHeader :: locs.map LocationRecord.csvFields

/-- Serialize one row: its encoded cells joined by the delimiter. -/
def encodeRow (row : List (List Char)) : List Char :=
  intercalateChar ',' (row.map encodeCell)

/-- The serialized CSV text: every row rendered with minimal quoting and
terminated by a newline (so the text ends with a trailing newline, as
`to_csv` output does). -/
def csvText (locs : List LocationRecord) : List Char :=
  ((csvRows locs).map (fun r => encodeRow r ++ ['\n'])).flatten

/-- The CSV reader's state: completed rows, completed cells of the current
row, characters of the current cell, and the scanner mode —
0 = at the start of a field, 1 = inside an unquoted field, 2 = inside a
quoted field, 3 = just saw a quote character inside a quoted field. -/
structure ScanState where
  rows : List (List (List Char))
  row : List (List Char)
  cell : List Char
  mode : ℕ
deriving DecidableEq, Repr

/-- One step of the CSV reader: a quote at field start opens a quoted
field; inside a quoted field a quote either doubles (escaped quote) or
closes the field; an unquoted delimiter ends the field and an unquoted
newline ends the row. -/
def scanStep (s : ScanState) (c : Char) : ScanState :=
  if s.mode = 0 then
    if c = '"' then ⟨s.rows, s.row, s.cell, 2⟩
    else if c = ',' then ⟨s.rows, s.row ++ [s.cell], [], 0⟩
    else if c = '\n' then ⟨s.rows ++ [s.row ++ [s.cell]], [], [], 0⟩
    else ⟨s.rows, s.row, s.cell ++ [c], 1⟩
  else if s.mode = 1 then
    if c = ',' then ⟨s.rows, s.row ++ [s.cell], [], 0⟩
    else if c = '\n' then ⟨s.rows ++ [s.row ++ [s.cell]], [], [], 0⟩
    else ⟨s.rows, s.row, s.cell ++ [c], 1⟩
  else if s.mode = 2 then
    if c = '"' then ⟨s.rows, s.row, s.cell, 3⟩
    else ⟨s.rows, s.row, s.cell ++ [c], 2⟩
  else
    if c = '"' then ⟨s.rows, s.row, s.cell ++ ['"'], 2⟩
    else if c = ',' then ⟨s.rows, s.row ++ [s.cell], [], 0⟩
    else if c = '\n' then ⟨s.rows ++ [s.row ++ [s.cell]], [], [], 0⟩
    else ⟨s.rows, s.row, s.cell ++ [c], 1⟩

/-- Finish a scan: a pending partial row (text without a final newline) is
flushed; a scan that ended right after a newline adds nothing. -/
def finishScan (s : ScanState) : List (List (List Char)) :=
  if s.mode = 0 ∧ s.row = [] ∧ s.cell = [] then s.rows
  else s.rows ++ [s.row ++ [s.cell]]

/-- Re-reading the delimited text: run the CSV reader over the characters. -/
def parseCsv (text : List Char) : List (List (List Char)) :=
  finishScan (text.foldl scanStep ⟨[], [], [], 0⟩)

/-- The `st.download_button("Download CSV File", csv,
"location_history.csv", "text/csv")` artifact; `encoding` records the
`.encode('utf-8')` step. -/
structure ExportArtifact where
  label : String
  content : List Char
  fileName : String
  mime : String
  encoding : String
deriving DecidableEq, Repr

/-- The "Export Data (CSV)" handler's offered download. -/
def exportCsv (locs : List LocationRecord) : ExportArtifact :=
  ⟨"Download CSV File", csvText locs, "location_history.csv", "text/csv",
   "utf-8"⟩

/-- The coordinate-range invariant stated in the spec's data model:
latitude in [-90, 90], longitude in [-180, 180]. -/
def validCoords (r : LocationRecord) : Prop :=
  -90 ≤ r.latitude ∧ r.latitude ≤ 90 ∧ -180 ≤ r.longitude ∧ r.longitude ≤ 180

/-! ## Helper lemmas: the CSV reader inverts the quoting serializer -/

theorem scanStep_mode0_quote (rows : List (List (List Char)))
    (row : List (List Char)) (cell : List Char) :
    scanStep ⟨rows, row, cell, 0⟩ '"' = ⟨rows, row, cell, 2⟩ := rfl

theorem scanStep_mode0_comma (rows : List (List (List Char)))
    (row : List (List Char)) (cell : List Char) :
    scanStep ⟨rows, row, cell, 0⟩ ',' = ⟨rows, row ++ [cell], [], 0⟩ := rfl

theorem scanStep_mode0_newline (rows : List (List (List Char)))
    (row : List (List Char)) (cell : List Char) :
    scanStep ⟨rows, row, cell, 0⟩ '\n' =
      ⟨rows ++ [row ++ [cell]], [], [], 0⟩ := rfl

theorem scanStep_mode0_other (rows : List (List (List Char)))
    (row : List (List Char)) (cell : List Char) (c : Char)
    (h1 : c ≠ '"') (h2 : c ≠ ',') (h3 : c ≠ '\n') :
    scanStep ⟨rows, row, cell, 0⟩ c = ⟨rows, row, cell ++ [c], 1⟩ := by
  simp [scanStep, h1, h2, h3]

theorem scanStep_mode1_comma (rows : List (List (List Char)))
    (row : List (List Char)) (cell : List Char) :
    scanStep ⟨rows, row, cell, 1⟩ ',' = ⟨rows, row ++ [cell], [], 0⟩ := rfl

theorem scanStep_mode1_newline (rows : List (List (List Char)))
    (row : List (List Char)) (cell : List Char) :
    scanStep ⟨rows, row, cell, 1⟩ '\n' =
      ⟨rows ++ [row ++ [cell]], [], [], 0⟩ := rfl

theorem scanStep_mode1_other (rows : List (List (List Char)))
    (row : List (List Char)) (cell : List Char) (c : Char)
    (h2 : c ≠ ',') (h3 : c ≠ '\n') :
    scanStep ⟨rows, row, cell, 1⟩ c = ⟨rows, row, cell ++ [c], 1⟩ := by
  simp [scanStep, h2, h3]

theorem scanStep_mode2_quote (rows : List (List (List Char)))
    (row : List (List Char)) (cell : List Char) :
    scanStep ⟨rows, row, cell, 2⟩ '"' = ⟨rows, row, cell, 3⟩ := rfl

theorem scanStep_mode2_other (rows : List (List (List Char)))
    (row : List (List Char)) (cell : List Char) (c : Char)
    (h1 : c ≠ '"') :
    scanStep ⟨rows, row, cell, 2⟩ c = ⟨rows, row, cell ++ [c], 2⟩ := by
  simp [scanStep, h1]

theorem scanStep_mode3_quote (rows : List (List (List Char)))
    (row : List (List Char)) (cell : List Char) :
    scanStep ⟨rows, row, cell, 3⟩ '"' = ⟨rows, row, cell ++ ['"'], 2⟩ := rfl

theorem scanStep_mode3_comma (rows : List (List (List Char)))
    (row : List (List Char)) (cell : List Char) :
    scanStep ⟨rows, row, cell, 3⟩ ',' = ⟨rows, row ++ [cell], [], 0⟩ := rfl

theorem scanStep_mode3_newline (rows : List (List (List Char)))
    (row : List (List Char)) (cell : List Char) :
    scanStep ⟨rows, row, cell, 3⟩ '\n' =
      ⟨rows ++ [row ++ [cell]], [], [], 0⟩ := rfl

/-- Scanning the escaped body of a quoted field appends exactly the
original characters and stays in quoted mode. -/
theorem scan_escapeQuotes (cell : List Char) :
    ∀ (rows : List (List (List Char))) (row : List (List Char))
      (acc : List Char),
    (escapeQuotes cell).foldl scanStep ⟨rows, row, acc, 2⟩ =
      ⟨rows, row, acc ++ cell, 2⟩ := by
  induction cell with
  | nil => intro rows row acc; simp [escapeQuotes]
  | cons c cs ih =>
    intro rows row acc
    by_cases hc : c = '"'
    · subst hc
      rw [show escapeQuotes ('"' :: cs) = '"' :: '"' :: escapeQuotes cs from
        by simp [escapeQuotes]]
      rw [List.foldl_cons, scanStep_mode2_quote, List.foldl_cons,
          scanStep_mode3_quote, ih]
      simp
    · rw [show escapeQuotes (c :: cs) = c :: escapeQuotes cs from
        by simp [escapeQuotes, hc]]
      rw [List.foldl_cons, scanStep_mode2_other rows row acc c hc, ih]
      simp

/-- Scanning delimiter-free, newline-free characters of an unquoted field
appends them and stays in unquoted mode. -/
theorem scan_unquoted (cell : List Char)
    (h : ∀ c ∈ cell, c ≠ ',' ∧ c ≠ '\n') :
    ∀ (rows : List (List (List Char))) (row : List (List Char))
      (acc : List Char),
    cell.foldl scanStep ⟨rows, row, acc, 1⟩ = ⟨rows, row, acc ++ cell, 1⟩ := by
  induction cell with
  | nil => intro rows row acc; simp
  | cons c cs ih =>
    intro rows row acc
    have hc := h c (List.mem_cons_self _ _)
    rw [List.foldl_cons, scanStep_mode1_other rows row acc c hc.1 hc.2,
        ih (fun a ha => h a (List.mem_cons_of_mem _ ha))]
    simp

theorem needsQuote_false_spec (cell : List Char)
    (h : needsQuote cell = false) :
    ∀ c ∈ cell, c ≠ ',' ∧ c ≠ '"' ∧ c ≠ '\n' ∧ c ≠ '\r' := by
  intro c hc
  have h2 := (List.any_eq_false.1 h) c hc
  simp only [Bool.or_eq_true, beq_iff_eq, not_or] at h2
  exact ⟨h2.1.1.1, h2.1.1.2, h2.1.2, h2.2⟩

/-- Scanning one serialized field from a fresh-field state rebuilds the
original field value, ending in a mode from which the next separator
flushes it. -/
theorem scan_encodeCell (cell : List Char) (rows : List (List (List Char)))
    (row : List (List Char)) :
    ∃ m, (m = 0 ∨ m = 1 ∨ m = 3) ∧
      (encodeCell cell).foldl scanStep ⟨rows, row, [], 0⟩ =
        ⟨rows, row, cell, m⟩ := by
  by_cases hq : needsQuote cell = true
  · refine ⟨3, Or.inr (Or.inr rfl), ?_⟩
    rw [encodeCell, if_pos hq, List.foldl_cons, scanStep_mode0_quote,
        List.foldl_append, scan_escapeQuotes]
    simp [scanStep_mode2_quote]
  · rw [Bool.not_eq_true] at hq
    have hspec := needsQuote_false_spec cell hq
    cases cell with
    | nil =>
      exact ⟨0, Or.inl rfl, by simp [encodeCell, hq]⟩
    | cons c cs =>
      have hc := hspec c (List.mem_cons_self _ _)
      refine ⟨1, Or.inr (Or.inl rfl), ?_⟩
      rw [encodeCell, if_neg (by simp [hq]), List.foldl_cons,
          scanStep_mode0_other rows row [] c hc.2.1 hc.1 hc.2.2.1,
          scan_unquoted cs
            (fun a ha => ⟨(hspec a (List.mem_cons_of_mem _ ha)).1,
              (hspec a (List.mem_cons_of_mem _ ha)).2.2.1⟩)]
      simp

/-- A serialized field followed by a delimiter is flushed as one cell of
the current row. -/
theorem scan_cell_comma (cell : List Char) (rows : List (List (List Char)))
    (row : List (List Char)) :
    (encodeCell cell ++ [',']).foldl scanStep ⟨rows, row, [], 0⟩ =
      ⟨rows, row ++ [cell], [], 0⟩ := by
  obtain ⟨m, hm, hscan⟩ := scan_encodeCell cell rows row
  rw [List.foldl_append, hscan]
  rcases hm with rfl | rfl | rfl
  · rw [List.foldl_cons, scanStep_mode0_comma, List.foldl_nil]
  · rw [List.foldl_cons, scanStep_mode1_comma, List.foldl_nil]
  · rw [List.foldl_cons, scanStep_mode3_comma, List.foldl_nil]

/-- A serialized field followed by a newline ends the current row. -/
theorem scan_cell_newline (cell : List Char) (rows : List (List (List Char)))
    (row : List (List Char)) :
    (encodeCell cell ++ ['\n']).foldl scanStep ⟨rows, row, [], 0⟩ =
      ⟨rows ++ [row ++ [cell]], [], [], 0⟩ := by
  obtain ⟨m, hm, hscan⟩ := scan_encodeCell cell rows row
  rw [List.foldl_append, hscan]
  rcases hm with rfl | rfl | rfl
  · rw [List.foldl_cons, scanStep_mode0_newline, List.foldl_nil]
  · rw [List.foldl_cons, scanStep_mode1_newline, List.foldl_nil]
  · rw [List.foldl_cons, scanStep_mode3_newline, List.foldl_nil]

theorem intercalateChar_cons₂ (c : Char) (l l2 : List Char)
    (ls : List (List Char)) :
    intercalateChar c (l :: l2 :: ls) = l ++ c :: intercalateChar c (l2 :: ls) :=
  rfl

/-- A serialized row followed by its newline appends exactly the original
cells as one completed row. -/
theorem scan_encodeRow (cells : List (List Char)) (hne : cells ≠ []) :
    ∀ (rows : List (List (List Char))) (row : List (List Char)),
    (encodeRow cells ++ ['\n']).foldl scanStep ⟨rows, row, [], 0⟩ =
      ⟨rows ++ [row ++ cells], [], [], 0⟩ := by
  induction cells with
  | nil => exact absurd rfl hne
  | cons c cs ih =>
    intro rows row
    cases cs with
    | nil =>
      rw [show encodeRow [c] = encodeCell c from by
        simp [encodeRow, intercalateChar]]
      exact scan_cell_newline c rows row
    | cons c2 cs2 =>
      rw [show encodeRow (c :: c2 :: cs2) =
          encodeCell c ++ ',' :: encodeRow (c2 :: cs2) from by
        simp [encodeRow, List.map_cons, intercalateChar_cons₂]]
      rw [show (encodeCell c ++ ',' :: encodeRow (c2 :: cs2)) ++ ['\n'] =
          (encodeCell c ++ [',']) ++ (encodeRow (c2 :: cs2) ++ ['\n']) from by
        simp]
      rw [List.foldl_append, scan_cell_comma,
          ih (List.cons_ne_nil _ _) rows (row ++ [c])]
      simp

/-- Scanning a sequence of newline-terminated serialized rows appends
exactly those rows. -/
theorem scan_encodedRows (rws : List (List (List Char)))
    (h : ∀ r ∈ rws, r ≠ []) :
    ∀ rows : List (List (List Char)),
    ((rws.map (fun r => encodeRow r ++ ['\n'])).flatten).foldl scanStep
        ⟨rows, [], [], 0⟩ =
      ⟨rows ++ rws, [], [], 0⟩ := by
  induction rws with
  | nil => intro rows; simp
  | cons r rs ih =>
    intro rows
    rw [List.map_cons, List.flatten_cons, List.foldl_append,
        scan_encodeRow r (h r (List.mem_cons_self _ _)) rows [],
        ih (fun a ha => h a (List.mem_cons_of_mem _ ha)) (rows ++ [[] ++ r])]
    simp

theorem csvRows_ne_nil (locs : List LocationRecord) :
    ∀ r ∈ csvRows locs, r ≠ [] := by
  intro r hr
  rcases List.mem_cons.1 hr with rfl | hr2
  · simp [csvHeader]
  · rcases List.mem_map.1 hr2 with ⟨l, _, rfl⟩
    simp [LocationRecord.csvFields]

/-- The CSV round-trip at the row level: re-reading the serialized text
gives back exactly the header row and the field rows in insertion order,
for every history — quoting protects fields containing delimiters, quotes
or line breaks. -/
theorem parseCsv_csvText (locs : List LocationRecord) :
    parseCsv (csvText locs) = csvRows locs := by
  rw [parseCsv, csvText,
      scan_encodedRows (csvRows locs) (csvRows_ne_nil locs) []]
  simp [finishScan]

theorem applyAppends_eq (s rs : List LocationRecord) :
    applyAppends s rs = s ++ rs := by
  induction rs generalizing s with
  | nil => simp [applyAppends]
  | cons r rs ih =>
    have h := ih (s ++ [r])
    simp only [applyAppends, List.foldl_cons, appendRecord] at h ⊢
    rw [h, List.append_assoc, List.singleton_append]

/-! ## Claims -/

/-- **C1**: whenever the underlying reverse-geocoding lookup errors (network
error, malformed response, service error, timeout), the geocoding step yields
exactly `"Unknown location"` and never propagates the error, so record
creation proceeds on both the browser-geolocation path and the manual-entry
path. -/
theorem C1_geocoder_fallback (e : GeoError) (hist : List LocationRecord)
    (mlat mlon : ℚ) (acc : Option ℚ) (now : DateTime) :
    geocodeResult (Except.error e) = "Unknown location" ∧
    addManualLocation hist mlat mlon (Except.error e) now =
      hist ++ [⟨mlat, mlon, some 0, "Unknown location", strftime now⟩] ∧
    (∀ la lo : ℚ, la ≠ 0 → lo ≠ 0 →
      get_location (some la) (some lo) acc none (Except.error e) now =
        ⟨some ⟨la, lo, acc, "Unknown location", strftime now⟩, none⟩) := by
  refine ⟨rfl, rfl, fun la lo hla hlo => ?_⟩
  simp [get_location, truthyStr, truthyQ, hla, hlo, geocodeResult]

/-- Witness for C1: a concrete failing lookup on the browser path still
produces a record, with the fallback address. -/
theorem C1_geocoder_fallback_witness :
    get_location (some 37) (some (-122)) (some 5) none
        (Except.error GeoError.network) ⟨2024, 1, 1, 0, 0, 0⟩ =
      ⟨some ⟨37, -122, some 5, "Unknown location",
        strftime ⟨2024, 1, 1, 0, 0, 0⟩⟩, none⟩ :=
  (C1_geocoder_fallback GeoError.network [] 0 0 (some 5)
    ⟨2024, 1, 1, 0, 0, 0⟩).2.2 37 (-122) (by norm_num) (by norm_num)

/-- **C2**: starting from any state, a sequence of appends leaves `all()`
returning the appended records in exactly the order appended, and `latest()`
returning the last-appended record. -/
theorem C2_append_order (s rs : List LocationRecord) :
    allLocations (applyAppends s rs) = s ++ rs ∧
    (∀ front r, rs = front ++ [r] →
      latestLocation (applyAppends s rs) = some r) := by
  refine ⟨applyAppends_eq s rs, fun front r hr => ?_⟩
  subst hr
  rw [latestLocation, applyAppends_eq, ← List.append_assoc,
      List.getLast?_concat]

/-- Witness for C2 on a two-record history. -/
theorem C2_append_order_witness :
    allLocations (applyAppends []
        [⟨37, -122, some 5, "X", "2024-01-01 00:00:00"⟩,
         ⟨371/10, -1221/10, none, "Y", "2024-01-01 00:05:00"⟩]) =
      [⟨37, -122, some 5, "X", "2024-01-01 00:00:00"⟩,
       ⟨371/10, -1221/10, none, "Y", "2024-01-01 00:05:00"⟩] ∧
    latestLocation (applyAppends []
        [⟨37, -122, some 5, "X", "2024-01-01 00:00:00"⟩,
         ⟨371/10, -1221/10, none, "Y", "2024-01-01 00:05:00"⟩]) =
      some ⟨371/10, -1221/10, none, "Y", "2024-01-01 00:05:00"⟩ := by
  have h := C2_append_order []
    [⟨37, -122, some 5, "X", "2024-01-01 00:00:00"⟩,
     ⟨371/10, -1221/10, none, "Y", "2024-01-01 00:05:00"⟩]
  exact ⟨h.1, h.2 [⟨37, -122, some 5, "X", "2024-01-01 00:00:00"⟩]
    ⟨371/10, -1221/10, none, "Y", "2024-01-01 00:05:00"⟩ rfl⟩

/-- **C5 (counterexample)**: the coordinate-range invariant does not hold on
the code: the manual-entry handler accepts latitude 200 / longitude 300 and
appends the record unvalidated. -/
theorem C5_range_invariant_cex :
    ¬ ∀ r ∈ addManualLocation [] 200 300 (Except.error GeoError.network)
        ⟨2024, 1, 1, 0, 0, 0⟩, validCoords r := by
  intro hall
  have hm : (⟨200, 300, some 0, "Unknown location",
      strftime ⟨2024, 1, 1, 0, 0, 0⟩⟩ : LocationRecord) ∈
      addManualLocation [] 200 300 (Except.error GeoError.network)
        ⟨2024, 1, 1, 0, 0, 0⟩ := by decide
  have h90 := (hall _ hm).2.1
  norm_num at h90

/-- **C5 (amended)**: the range invariant is not enforced by the input
controllers; a manual append preserves it exactly when the typed coordinates
themselves are in range. -/
theorem C5_range_invariant_amended (hist : List LocationRecord)
    (mlat mlon : ℚ) (geo : GeoResult) (now : DateTime)
    (h : ∀ r ∈ hist, validCoords r) :
    (∀ r ∈ addManualLocation hist mlat mlon geo now, validCoords r) ↔
      (-90 ≤ mlat ∧ mlat ≤ 90 ∧ -180 ≤ mlon ∧ mlon ≤ 180) := by
  constructor
  · intro hall
    exact hall ⟨mlat, mlon, some 0, geocodeResult geo, strftime now⟩
      (by simp [addManualLocation])
  · intro hr r hmem
    rcases List.mem_append.1 hmem with h1 | h2
    · exact h r h1
    · rcases List.mem_singleton.1 h2 with rfl
      exact hr

/-- Witness for the amended C5 at an in-range input over an empty history. -/
theorem C5_range_invariant_amended_witness :
    (∀ r ∈ addManualLocation [] 10 20 (Except.ok "addr")
        ⟨2024, 1, 1, 0, 0, 0⟩, validCoords r) ↔
      (-90 ≤ (10 : ℚ) ∧ (10 : ℚ) ≤ 90 ∧
       -180 ≤ (20 : ℚ) ∧ (20 : ℚ) ≤ 180) :=
  C5_range_invariant_amended [] 10 20 (Except.ok "addr")
    ⟨2024, 1, 1, 0, 0, 0⟩ (by simp)

/-- **C6**: every manual-entry submission appends exactly one record carrying
the typed coordinates, accuracy 0, the geocoder result (or fallback) as
address, and the current time formatted `YYYY-MM-DD HH:MM:SS`; the append
always succeeds, including for the (0, 0) default input. -/
theorem C6_manual_entry (hist : List LocationRecord) (mlat mlon : ℚ)
    (geo : GeoResult) (now : DateTime) :
    addManualLocation hist mlat mlon geo now =
      hist ++ [⟨mlat, mlon, some 0, geocodeResult geo, strftime now⟩] ∧
    (addManualLocation hist mlat mlon geo now).length = hist.length + 1 ∧
    (addManualLocation hist 0 0 geo now).length = hist.length + 1 ∧
    ((∃ a, geo = Except.ok a ∧ geocodeResult geo = a) ∨
      geocodeResult geo = "Unknown location") ∧
    strftime ⟨2024, 1, 5, 7, 3, 9⟩ = "2024-01-05 07:03:09" := by
  refine ⟨rfl, by simp [addManualLocation], by simp [addManualLocation],
    ?_, by decide⟩
  cases geo with
  | ok a => exact Or.inl ⟨a, rfl, rfl⟩
  | error e => exact Or.inr rfl

/-- **C7**: when the browser reports a geolocation error, `get_location`
shows a visible error message and returns no record, and the "Get Current
Location" handler leaves the history unchanged. -/
theorem C7_acquisition_failure (hist : List LocationRecord)
    (lat lon acc : Option ℚ) (geo : GeoResult) (now : DateTime)
    (e : String) (he : e ≠ "") :
    (get_location lat lon acc (some e) geo now).record = none ∧
    (get_location lat lon acc (some e) geo now).errorMsg =
      some ("Error getting location: " ++ e) ∧
    getCurrentLocationHandler hist lat lon acc (some e) geo now = hist := by
  have ht : truthyStr (some e) = true := by simp [truthyStr, he]
  have h1 : get_location lat lon acc (some e) geo now =
      ⟨none, some ("Error getting location: " ++ e)⟩ := by
    simp [get_location, ht, errorText]
  exact ⟨by rw [h1], by rw [h1],
    by simp [getCurrentLocationHandler, h1]⟩

/-- Witness for C7: a concrete permission denial appends nothing. -/
theorem C7_acquisition_failure_witness :
    (get_location none none none (some "User denied Geolocation")
        (Except.ok "addr") ⟨2024, 1, 1, 0, 0, 0⟩).record = none ∧
    (get_location none none none (some "User denied Geolocation")
        (Except.ok "addr") ⟨2024, 1, 1, 0, 0, 0⟩).errorMsg =
      some ("Error getting location: " ++ "User denied Geolocation") ∧
    getCurrentLocationHandler [] none none none
        (some "User denied Geolocation") (Except.ok "addr")
        ⟨2024, 1, 1, 0, 0, 0⟩ = [] :=
  C7_acquisition_failure [] none none none (Except.ok "addr")
    ⟨2024, 1, 1, 0, 0, 0⟩ "User denied Geolocation" (by decide)

/-- **C8**: clearing the history followed by `all()` yields the empty
sequence, whatever the prior history; the clear operation is total. -/
theorem C8_clear_empties (hist : List LocationRecord) :
    allLocations (clearHistory hist) = [] ∧
    latestLocation (clearHistory hist) = none :=
  ⟨rfl, rfl⟩

/-- **C10**: record creation on the browser path is guarded by Python
truthiness of the coordinates, not their presence: a missing or exactly-zero
latitude or longitude yields no record and no error message, even though
acquisition succeeded, and the history is unchanged. -/
theorem C10_truthiness_guard (lat lon acc : Option ℚ) (geo : GeoResult)
    (now : DateTime)
    (h : lat = none ∨ lat = some 0 ∨ lon = none ∨ lon = some 0) :
    get_location lat lon acc none geo now = ⟨none, none⟩ ∧
    ∀ hist, getCurrentLocationHandler hist lat lon acc none geo now = hist := by
  have hz : truthyQ (some 0) = false := by decide
  have hguard : (truthyQ lat && truthyQ lon) = false := by
    rcases h with rfl | rfl | rfl | rfl
    · rfl
    · rw [hz, Bool.false_and]
    · rw [show truthyQ none = false from rfl, Bool.and_false]
    · rw [hz, Bool.and_false]
  have h1 : get_location lat lon acc none geo now = ⟨none, none⟩ := by
    simp [get_location, truthyStr, hguard]
  exact ⟨h1, fun hist => by simp [getCurrentLocationHandler, h1]⟩

/-- **C3**: the map renderer is a pure function of the history: no map for
an empty history; otherwise a map centered on the latest record at fixed
zoom 15, with exactly one marker per record in insertion order, the marker
at index N-1 in the distinct "latest" style and all earlier markers in the
shared "earlier" style, and a polyline through all coordinates in insertion
order exactly when N ≥ 2. -/
theorem C3_map_renderer (locs : List LocationRecord) :
    renderMap ([] : List LocationRecord) = none ∧
    (∀ hne : locs ≠ [], ∃ m, renderMap locs = some m ∧
      m.center = ((locs.getLast hne).latitude, (locs.getLast hne).longitude) ∧
      m.zoom = 15 ∧
      m.markers.length = locs.length ∧
      (∀ (i : ℕ) (loc : LocationRecord), locs[i]? = some loc →
        m.markers[i]? = some ⟨(loc.latitude, loc.longitude), popupText loc,
          if i = locs.length - 1 then latestIcon else earlierIcon⟩) ∧
      m.markers[locs.length - 1]? =
        some ⟨((locs.getLast hne).latitude, (locs.getLast hne).longitude),
          popupText (locs.getLast hne), latestIcon⟩ ∧
      (∀ (i : ℕ) (loc : LocationRecord), locs[i]? = some loc →
        i ≠ locs.length - 1 →
        m.markers[i]? = some ⟨(loc.latitude, loc.longitude), popupText loc,
          earlierIcon⟩) ∧
      (locs.length = 1 → m.polyline = none) ∧
      (1 < locs.length →
        m.polyline = some (locs.map fun l => (l.latitude, l.longitude)))) := by
  refine ⟨rfl, fun hne => ?_⟩
  have hl : locs.getLast? = some (locs.getLast hne) :=
    List.getLast?_eq_getLast locs hne
  have hr : renderMap locs = some
      ⟨((locs.getLast hne).latitude, (locs.getLast hne).longitude), 15,
       locs.enum.map (fun p => mkMarker locs.length p.1 p.2),
       if locs.length > 1 then
         some (locs.map (fun l => (l.latitude, l.longitude)))
       else none⟩ := by
    rw [renderMap, hl]
  have hget : ∀ i,
      (locs.enum.map (fun p => mkMarker locs.length p.1 p.2))[i]? =
        locs[i]?.map (mkMarker locs.length i) := by
    intro i
    rw [List.getElem?_map, List.getElem?_enum, Option.map_map]
    cases locs[i]? <;> rfl
  refine ⟨_, hr, rfl, rfl, by simp [List.enum_length], ?_, ?_, ?_, ?_, ?_⟩
  · intro i loc hi
    have h := hget i
    rw [hi] at h
    simpa [mkMarker] using h
  · have hlast : locs[locs.length - 1]? = some (locs.getLast hne) :=
      (List.getLast?_eq_getElem? locs).symm.trans hl
    have h := hget (locs.length - 1)
    rw [hlast] at h
    simpa [mkMarker] using h
  · intro i loc hi hne2
    have h := hget i
    rw [hi] at h
    simpa [mkMarker, hne2] using h
  · intro h1
    simp [h1]
  · intro h2
    simp [h2]

/-- Witness for C3 on a concrete two-record history: two markers, the last
one distinguished, one polyline through both points in order. -/
theorem C3_map_renderer_witness :
    ∃ m, renderMap
        [⟨37, -122, some 5, "X", "t1"⟩, ⟨38, -123, none, "Y", "t2"⟩] =
          some m ∧
      m.zoom = 15 ∧ m.markers.length = 2 ∧
      m.polyline = some [(37, -122), (38, -123)] ∧
      m.markers[1]? =
        some ⟨(38, -123), popupText ⟨38, -123, none, "Y", "t2"⟩, latestIcon⟩ ∧
      m.markers[0]? =
        some ⟨(37, -122), popupText ⟨37, -122, some 5, "X", "t1"⟩,
          earlierIcon⟩ := by
  obtain ⟨m, h1, h2, h3, h4, h5, h6, h7, h8, h9⟩ :=
    (C3_map_renderer
      [⟨37, -122, some 5, "X", "t1"⟩, ⟨38, -123, none, "Y", "t2"⟩]).2
      (by decide)
  exact ⟨m, h1, h3, h4, h9 (by norm_num), h6,
    h7 0 ⟨37, -122, some 5, "X", "t1"⟩ rfl (by decide)⟩

set_option maxRecDepth 4000 in
/-- A concrete evaluation of the quoting path: an address containing
commas is quoted on the way out and restored intact on re-reading. -/
theorem csvText_quoted_cell_eval :
    parseCsv (csvText [⟨37, -122, some 5, "Market St, SF, CA",
        "2024-01-01 00:00:00"⟩]) =
      csvRows [⟨37, -122, some 5, "Market St, SF, CA",
        "2024-01-01 00:00:00"⟩] := by decide

/-- **C4**: serialization writes a header of exactly the record's attribute
names, then every field of every record in insertion order, excluding no
row; re-reading the delimited text reproduces the same rows (count, column
set and field values); the artifact is a UTF-8 download named
`location_history.csv`. -/
theorem C4_export_roundtrip (locs : List LocationRecord) :
    parseCsv (csvText locs) = csvRows locs ∧
    (parseCsv (csvText locs)).length = locs.length + 1 ∧
    (parseCsv (csvText locs)).head? = some csvHeader ∧
    (parseCsv (csvText locs)).tail = locs.map LocationRecord.csvFields ∧
    (exportCsv locs).fileName = "location_history.csv" ∧
    (exportCsv locs).encoding = "utf-8" ∧
    (exportCsv locs).content = csvText locs := by
  have key := parseCsv_csvText locs
  refine ⟨key, ?_, ?_, ?_, rfl, rfl, rfl⟩ <;> rw [key] <;> simp [csvRows]

/-- **C9**: for every non-empty history the panel shows the latest record's
timestamp, coordinates, address and accuracy, omitting the accuracy line
exactly when the accuracy is absent or zero, and shows the
timestamp/latitude/longitude table over all records in insertion order. -/
theorem C9_history_panel (locs : List LocationRecord) (hne : locs ≠ []) :
    ∃ p, renderHistoryPanel locs = some p ∧
      p.latestTime = (locs.getLast hne).timestamp ∧
      p.latestCoords =
        ((locs.getLast hne).latitude, (locs.getLast hne).longitude) ∧
      p.latestAddress = (locs.getLast hne).address ∧
      (p.accuracyLine = none ↔
        ((locs.getLast hne).accuracy = none ∨
         (locs.getLast hne).accuracy = some 0)) ∧
      p.tableRows =
        locs.map (fun l => (l.timestamp, l.latitude, l.longitude)) := by
  have hl : locs.getLast? = some (locs.getLast hne) :=
    List.getLast?_eq_getLast locs hne
  have hr : renderHistoryPanel locs = some
      ⟨(locs.getLast hne).timestamp,
       ((locs.getLast hne).latitude, (locs.getLast hne).longitude),
       (locs.getLast hne).address,
       if truthyQ (locs.getLast hne).accuracy then
         some ("±" ++ toString ((locs.getLast hne).accuracy.getD 0) ++
           " meters")
       else none,
       locs.map (fun l => (l.timestamp, l.latitude, l.longitude))⟩ := by
    rw [renderHistoryPanel, hl]
  refine ⟨_, hr, rfl, rfl, rfl, ?_, rfl⟩
  rcases hacc : (locs.getLast hne).accuracy with _ | q
  · simp [truthyQ]
  · by_cases hq : q = 0
    · subst hq
      have hz : truthyQ (some 0) = false := by decide
      simp [hz]
    · have ht : truthyQ (some q) = true := by simp [truthyQ, hq]
      simp [ht, hq]

/-- Witness for C9 on a concrete two-record history whose latest record has
no accuracy (line omitted). -/
theorem C9_history_panel_witness :
    ∃ p, renderHistoryPanel
        [⟨37, -122, some 5, "X", "t1"⟩, ⟨38, -123, none, "Y", "t2"⟩] =
          some p ∧
      p.latestTime = "t2" ∧ p.accuracyLine = none ∧
      p.tableRows = [("t1", 37, -122), ("t2", 38, -123)] := by
  obtain ⟨p, h1, h2, h3, h4, h5, h6⟩ := C9_history_panel
    [⟨37, -122, some 5, "X", "t1"⟩, ⟨38, -123, none, "Y", "t2"⟩] (by decide)
  exact ⟨p, h1, h2, h5.2 (Or.inl rfl), h6⟩

/-- Witness for C10: a successful acquisition on the equator produces no
record. -/
theorem C10_truthiness_guard_witness :
    get_location (some 0) (some 45) (some 10) none (Except.ok "Equator")
        ⟨2024, 1, 1, 0, 0, 0⟩ = ⟨none, none⟩ ∧
    getCurrentLocationHandler [] (some 0) (some 45) (some 10) none
        (Except.ok "Equator") ⟨2024, 1, 1, 0, 0, 0⟩ = [] := by
  have h := C10_truthiness_guard (some 0) (some 45) (some 10)
    (Except.ok "Equator") ⟨2024, 1, 1, 0, 0, 0⟩ (Or.inr (Or.inl rfl))
  exact ⟨h.1, h.2 []⟩

end WSA
